import Mathlib

/-!
Shallow embedding of the pggate DML bridge (`src/yb/yql/pggate/pg_dml.cc`) and
the index-access bridge's by-row-identifier select
(`src/postgres/src/backend/access/ybc/ybcin.c`).

Machine state (columns, protocol slots, bind/assign maps, cursor, batches) is
threaded explicitly.  Protocol-buffer objects, which the C++ code addresses by
pointer, are modelled as integer slot handles mapping to explicit contents, as
suggested by the design notes.  Each operation that can fail returns the
resulting state together with `Option PgErrorKind` (`none` meaning `Status::OK`),
so mutations that the C++ code performs before raising an error are preserved,
mirroring the fail-fast policy with no rollback.
-/

set_option autoImplicit false

namespace YbPggate

/-- Internal value type tags (`InternalType` in the C++ sources). -/
inductive InternalType where
  | kBoolValue
  | kInt32Value
  | kInt64Value
  | kFloatValue
  | kStringValue
  | kBinaryValue
  deriving DecidableEq, Repr

/-- Expressions (`PgExpr` hierarchy): a constant carrying its raw payload
bytes, a column reference carrying an attribute number, or a placeholder. -/
inductive PgExpr where
  | const (ty : InternalType) (value : List Nat)
  | colref (ty : InternalType) (attr : Int)
  | placeholder (ty : InternalType)
  deriving DecidableEq, Repr

/-- Type query `PgExpr::internal_type()`. -/
def PgExpr.internal_type : PgExpr → InternalType
  | .const ty _ => ty
  | .colref ty _ => ty
  | .placeholder ty => ty

/-- Constant query `PgExpr::is_constant()`. -/
def PgExpr.is_constant : PgExpr → Bool
  | .const _ _ => true
  | _ => false

/-- Opcode test: `target->opcode() == PgColumnRef::Opcode::PG_EXPR_COLREF`. -/
def PgExpr.is_colref : PgExpr → Bool
  | .colref _ _ => true
  | _ => false

/-- Raw payload accessor `PgConstant::binary_value()`. -/
def PgExpr.binary_value : PgExpr → List Nat
  | .const _ v => v
  | _ => []

/-- One column of the per-statement table view (`PgColumn`). -/
structure PgColumn where
  attr_num : Int
  id : Nat
  internal_type : InternalType
  is_virtual_column : Bool
  read_requested : Bool := false
  write_requested : Bool := false
  bind_pb : Option Nat := none
  assign_pb : Option Nat := none
  deriving DecidableEq, Repr

/-- Contents of one allocated protocol slot (`PgsqlExpressionPB`): the column
id set while preparing, and the encoded value written by evaluation. -/
structure PgsqlExpressionPB where
  column_id : Option Nat := none
  value : Option (List Nat) := none
  deriving DecidableEq, Repr

/-- One batch obtained from the external operation: its out-of-band row count
and its raw wire bytes (spec section 6: no row-count prefix in the stream). -/
structure Batch where
  row_count : Nat
  data : List Nat
  deriving DecidableEq, Repr

/-- Error classes of `Status` used by this layer.  `CheckFailed` stands for a
fatal `CHECK` abort, which terminates the call like an error does here. -/
inductive PgErrorKind where
  | NotFound
  | Corruption
  | InvalidArgument
  | InternalError
  | NotSupported
  | CheckFailed
  deriving DecidableEq, Repr

/-- Lookup in an association list keyed by slot handle. -/
def alookup {α : Type} (l : List (Nat × α)) (k : Nat) : Option α :=
  match l.find? (fun p => p.1 == k) with
  | some p => some p.2
  | none => none

/-- Insert-or-replace in an association list: every entry under key `k` is
replaced; if the key is absent the pair is added in front. -/
def aupsert {α : Type} (l : List (Nat × α)) (k : Nat) (v : α) : List (Nat × α) :=
  if (alookup l k).isSome then
    l.map (fun p => if p.1 = k then (k, v) else p)
  else
    (k, v) :: l

/-- The statement state (`PgDml`): catalog view, target list, slot arena,
bind/assign maps, side field for the row identifier, warning log, the external
operation's pending batches (`doc_op_`) and the cursor over the current batch. -/
structure PgDml where
  columns : List PgColumn
  targets : List PgExpr := []
  next_slot : Nat := 0
  pbs : List (Nat × PgsqlExpressionPB) := []
  expr_binds : List (Nat × PgExpr) := []
  expr_assigns : List (Nat × PgExpr) := []
  ybctid_bind : Option (List Nat) := none
  warnings : List Int := []
  batches : List Batch := []
  cursor : List Nat := []
  accumulated_row_count : Nat := 0
  deriving DecidableEq, Repr

/-- Attribute number `PgSystemAttrNum::kYBTupleId` of the row-identifier attribute number
(`YBTupleIdAttributeNumber` on the postgres side). -/
def kYBTupleId : Int := -8

/-- Attribute number `ObjectIdAttributeNumber` of the legacy object-id system column. -/
def kObjectId : Int := -2

/-- Modelled from the spec: `PgTableDesc::FindColumn` (catalog lookup by
attribute number), absent from the shown sources; the spec gives "Table/Column
catalog lookup ... by attribute number", failing `NotFound` when absent. -/
def PgDml.FindColumn (st : PgDml) (attr : Int) : Except PgErrorKind PgColumn :=
  match st.columns.find? (fun c => c.attr_num == attr) with
  | some c => .ok c
  | none => .error .NotFound

/-- Update the column with the given attribute number in place. -/
def PgDml.setColumn (st : PgDml) (attr : Int) (f : PgColumn → PgColumn) : PgDml :=
  { st with columns := st.columns.map (fun c => if c.attr_num == attr then f c else c) }

/-- Write into the protocol slot `k` (the C++ code writes through a pointer,
so the slot always exists; absent handles are inserted with default contents). -/
def PgDml.setPb (st : PgDml) (k : Nat) (f : PgsqlExpressionPB → PgsqlExpressionPB) : PgDml :=
  { st with pbs := aupsert st.pbs k (f ((alookup st.pbs k).getD {})) }

/-- The datatype check shared by `BindColumn` and `AssignColumn`
(pg_dml.cc lines 131-134 and 186-189): when the column's internal type is the
combined TEXT/BINARY representation (`kBinaryValue`) the check is skipped,
otherwise the two internal types must be equal. -/
def typeCheckOk (col : PgColumn) (e : PgExpr) : Bool :=
  col.internal_type == InternalType.kBinaryValue
    || col.internal_type == e.internal_type

/-- Modelled from the spec: `AllocColumnBindPB` (implemented by statement
subclasses, absent from the shown sources) mints a fresh protocol slot for the
column's read binding ("reuses the column's existing bind slot if present,
else allocates one"). -/
def PgDml.AllocColumnBindPB (st : PgDml) (attr : Int) : PgDml × Nat :=
  let s := st.next_slot
  (((({ st with next_slot := s + 1,
                pbs := st.pbs ++ [(s, {})] } : PgDml).setColumn attr
        (fun c => { c with bind_pb := some s }))), s)

/-- Modelled from the spec: `AllocColumnAssignPB`, the write-assign analogue
of `AllocColumnBindPB`. -/
def PgDml.AllocColumnAssignPB (st : PgDml) (attr : Int) : PgDml × Nat :=
  let s := st.next_slot
  (((({ st with next_slot := s + 1,
                pbs := st.pbs ++ [(s, {})] } : PgDml).setColumn attr
        (fun c => { c with assign_pb := some s }))), s)

/-- Modelled from the spec: `AllocTargetPB` mints a fresh slot for a target
expression without touching any column. -/
def PgDml.AllocTargetPB (st : PgDml) : PgDml × Nat :=
  let s := st.next_slot
  ({ st with next_slot := s + 1, pbs := st.pbs ++ [(s, {})] }, s)

/-- Source `PgDml::PrepareColumnForRead` (pg_dml.cc lines 82-98): resolve the column,
record its id in the slot, and mark it read-requested unless virtual. -/
def PgDml.PrepareColumnForRead (st : PgDml) (attr : Int) (slot : Nat) :
    PgDml × Option PgErrorKind :=
  match st.FindColumn attr with
  | .error k => (st, some k)
  | .ok col =>
    let st := st.setPb slot (fun pb => { pb with column_id := some col.id })
    let st :=
      if !col.is_virtual_column then
        st.setColumn attr (fun c => { c with read_requested := true })
      else st
    (st, none)

/-- Source `PgDml::PrepareColumnForWrite` (pg_dml.cc lines 100-110): record the
column id in the assign slot and mark the column write-requested unless
virtual. -/
def PgDml.PrepareColumnForWrite (st : PgDml) (attr : Int) (slot : Nat) : PgDml :=
  match st.FindColumn attr with
  | .error _ => st
  | .ok col =>
    let st := st.setPb slot (fun pb => { pb with column_id := some col.id })
    if !col.is_virtual_column then
      st.setColumn attr (fun c => { c with write_requested := true })
    else st

/-- Modelled from the spec: `PgExpr::PrepareForRead` (pg_expr.cc, absent from
the shown sources).  Constants prepare once, writing their payload into the
slot; column references delegate to `PrepareColumnForRead`; placeholders are
set up lazily and do nothing here. -/
def PgExpr.prepareForRead (e : PgExpr) (st : PgDml) (slot : Nat) :
    PgDml × Option PgErrorKind :=
  match e with
  | .const _ v => (st.setPb slot (fun pb => { pb with value := some v }), none)
  | .colref _ attr => st.PrepareColumnForRead attr slot
  | .placeholder _ => (st, none)

/-- Modelled from the spec: `PgExpr::Eval` writes the expression's current
value into its slot on every execution; constants (re)write their payload,
the other kinds contribute nothing at evaluation time.  Its `Status` is
always OK for the modelled expression kinds. -/
def PgExpr.evalStep (e : PgExpr) (st : PgDml) (slot : Nat) : PgDml :=
  match e with
  | .const _ v => st.setPb slot (fun pb => { pb with value := some v })
  | _ => st

/-- Source `PgDml::ClearBinds` (pg_dml.cc lines 51-53). -/
def PgDml.ClearBinds (_st : PgDml) : Option PgErrorKind :=
  some .NotSupported

/-- Source `PgDml::AppendTarget` (pg_dml.cc lines 62-80): push the target, allocate a
fresh slot, prepare the expression against it, and record it in the bind map. -/
def PgDml.AppendTarget (st : PgDml) (target : PgExpr) : PgDml × Option PgErrorKind :=
  let st := { st with targets := st.targets ++ [target] }
  let (st, slot) := st.AllocTargetPB
  match target.prepareForRead st slot with
  | (st, some k) => (st, some k)
  | (st, none) => ({ st with expr_binds := aupsert st.expr_binds slot target }, none)

/-- Source `PgDml::BindColumn` (pg_dml.cc lines 123-162): resolve, type-check, reuse
or allocate the bind slot (warning when the slot already holds an expression),
prepare the expression, record it in the bind map, and capture the payload of
a constant bound to the row-identifier attribute (a non-constant there hits a
fatal `CHECK`). -/
def PgDml.BindColumn (st : PgDml) (attr : Int) (attr_value : PgExpr) :
    PgDml × Option PgErrorKind :=
  match st.FindColumn attr with
  | .error k => (st, some k)
  | .ok col =>
    if !typeCheckOk col attr_value then (st, some .Corruption)
    else
      let (st, slot) :=
        match col.bind_pb with
        | none => st.AllocColumnBindPB attr
        | some s =>
          (if (alookup st.expr_binds s).isSome then
             { st with warnings := attr :: st.warnings }
           else st, s)
      match attr_value.prepareForRead st slot with
      | (st, some k) => (st, some k)
      | (st, none) =>
        let st := { st with expr_binds := aupsert st.expr_binds slot attr_value }
        if attr == kYBTupleId then
          if attr_value.is_constant then
            ({ st with ybctid_bind := some attr_value.binary_value }, none)
          else (st, some .CheckFailed)
        else (st, none)

/-- Source `PgDml::AssignColumn` (pg_dml.cc lines 178-216): resolve, type-check,
reuse or allocate the assign slot — fail `InvalidArgument` when the slot
already holds an expression — then prepare the column for write, the
expression for read, and record the assignment. -/
def PgDml.AssignColumn (st : PgDml) (attr : Int) (attr_value : PgExpr) :
    PgDml × Option PgErrorKind :=
  match st.FindColumn attr with
  | .error k => (st, some k)
  | .ok col =>
    if !typeCheckOk col attr_value then (st, some .Corruption)
    else
      match
        (match col.assign_pb with
         | none =>
           let (st, s) := st.AllocColumnAssignPB attr
           Except.ok (st, s)
         | some s =>
           if (alookup st.expr_assigns s).isSome then Except.error ()
           else Except.ok (st, s)) with
      | .error () => (st, some .InvalidArgument)
      | .ok (st, slot) =>
        let st := st.PrepareColumnForWrite attr slot
        match attr_value.prepareForRead st slot with
        | (st, some k) => (st, some k)
        | (st, none) =>
          ({ st with expr_assigns := aupsert st.expr_assigns slot attr_value }, none)

/-- Evaluate every entry of a bind/assign map into its slot, in order
(the loop bodies of `UpdateBindPBs` and `UpdateAssignPBs`). -/
def evalAll (st : PgDml) : List (Nat × PgExpr) → PgDml
  | [] => st
  | (slot, e) :: rest => evalAll (e.evalStep st slot) rest

/-- Source `PgDml::UpdateBindPBs` (pg_dml.cc lines 164-174): re-evaluate every bound
expression into its slot.  Evaluation of the modelled expression kinds never
fails, so the OK status is left implicit. -/
def PgDml.UpdateBindPBs (st : PgDml) : PgDml :=
  evalAll st st.expr_binds

/-- Source `PgDml::UpdateAssignPBs` (pg_dml.cc lines 218-228). -/
def PgDml.UpdateAssignPBs (st : PgDml) : PgDml :=
  evalAll st st.expr_assigns

/-- The encoded value currently held by slot `s`. -/
def PgDml.pbValue (st : PgDml) (s : Nat) : Option (List Nat) :=
  match alookup st.pbs s with
  | some pb => pb.value
  | none => none

/-! ## Row decoding and the fetch loop -/

/-- The side channel for system columns (`PgSysColumns`); `Fetch` zeroes it
before reading (`memset(syscols, 0, ...)`). -/
structure PgSysColumns where
  oid : Nat := 0
  ybctid : Option (List Nat) := none
  deriving DecidableEq, Repr

/-- The output buffers one row is decoded into (`PgTuple`): caller-provided
value array, null-indicator array and the system-column side channel. -/
structure PgTuple where
  values : List Nat
  isnulls : List Bool
  syscols : PgSysColumns
  deriving DecidableEq, Repr

/-- Replace the entry at `i`, leaving the list unchanged when out of range. -/
def listSet {α : Type} : List α → Nat → α → List α
  | [], _, _ => []
  | _ :: xs, 0, v => v :: xs
  | x :: xs, n + 1, v => x :: listSet xs n v

/-- Fold payload bytes into the `uint64` datum the C side stores. -/
def bytesToNat (bs : List Nat) : Nat :=
  bs.foldl (fun acc b => acc * 256 + b) 0

/-- Modelled from the spec: the per-type payload width of the wire format
(`PgDocData`, absent from the shown sources); fixed-width types carry a fixed
number of bytes, `none` marks the variable-width types that carry a length
prefix. -/
def fixedSize : InternalType → Option Nat
  | .kBoolValue => some 1
  | .kInt32Value => some 4
  | .kInt64Value => some 8
  | .kFloatValue => some 8
  | .kStringValue => none
  | .kBinaryValue => none

/-- Take exactly `n` bytes from the cursor; a truncated stream is a corrupt
stream (the spec notes there is no resynchronization mechanism). -/
def takeExact : Nat → List Nat → Except PgErrorKind (List Nat × List Nat)
  | 0, c => .ok ([], c)
  | _ + 1, [] => .error .Corruption
  | n + 1, b :: c =>
    match takeExact n c with
    | .error k => .error k
    | .ok (p, rest) => .ok (b :: p, rest)

/-- Modelled from the spec: `PgDocData::ReadDataHeader` reads the one-byte
self-describing header whose null bit precedes every value; a nonzero byte
marks a null value. -/
def ReadDataHeader : List Nat → Except PgErrorKind (Bool × List Nat)
  | [] => .error .Corruption
  | b :: c => .ok (b != 0, c)

/-- Modelled from the spec: read one value's payload per the declared type —
the fixed width for fixed-width types, else a one-byte length prefix followed
by that many payload bytes. -/
def readPayload (ty : InternalType) (c : List Nat) :
    Except PgErrorKind (List Nat × List Nat) :=
  match fixedSize ty with
  | some n => takeExact n c
  | none =>
    match c with
    | [] => .error .Corruption
    | len :: c => takeExact len c

/-- Modelled from the spec: `PgExpr::TranslateData` decodes one value and
delivers it.  The call site passes `attr_num() - 1` as the index; the
row-identifier and object-id system columns go to the `syscols` side channel,
a user column (nonnegative index) goes to that index of the caller's arrays,
and a null value carries no payload. -/
def TranslateData (ty : InternalType) (index : Int) (isNull : Bool)
    (c : List Nat) (t : PgTuple) : Except PgErrorKind (List Nat × PgTuple) :=
  if isNull then
    .ok (c, t)
  else
    match readPayload ty c with
    | .error k => .error k
    | .ok (p, rest) =>
      if index == kYBTupleId - 1 then
        .ok (rest, { t with syscols := { t.syscols with ybctid := some p } })
      else if index == kObjectId - 1 then
        .ok (rest, { t with syscols := { t.syscols with oid := bytesToNat p } })
      else if 0 ≤ index then
        .ok (rest, { t with values := listSet t.values index.toNat (bytesToNat p),
                            isnulls := listSet t.isnulls index.toNat false })
      else
        .ok (rest, t)

/-- The loop body of `PgDml::WritePgTuple` (pg_dml.cc lines 273-283): walk the
targets in order; a non-column-reference target is an internal error; a column
reference reads its header and translates its payload at index
`attr_num() - 1`. -/
def writeTupleAux : List PgExpr → List Nat → PgTuple →
    Except PgErrorKind (List Nat × PgTuple)
  | [], c, t => .ok (c, t)
  | target :: rest, c, t =>
    match target with
    | .colref ty attr =>
      match ReadDataHeader c with
      | .error k => .error k
      | .ok (isNull, c) =>
        match TranslateData ty (attr - 1) isNull c t with
        | .error k => .error k
        | .ok (c, t) => writeTupleAux rest c t
    | _ => .error .InternalError

/-- The outcome of one `Fetch` call: the updated statement state, the three
output buffers and the `has_data` flag. -/
structure FetchResult where
  st : PgDml
  values : List Nat
  isnulls : List Bool
  syscols : PgSysColumns
  has_data : Bool
  deriving DecidableEq, Repr

/-- The batch-request loop of `Fetch` (pg_dml.cc lines 247-263): keep reading
until the end of the result (`EndOfResult`, the distinct out-of-band signal,
modelled as the batch list being exhausted) or a batch with at least one row;
zero-row batches are consumed and skipped. -/
def fetchLoop : List Batch → Option (Batch × List Batch)
  | [] => none
  | b :: rest => if b.row_count == 0 then fetchLoop rest else some (b, rest)

/-- The decode tail of `Fetch` (pg_dml.cc lines 265-270): decode one row from
the cursor into the output buffers and report `has_data = true`. -/
def PgDml.decodeOne (st : PgDml) (values : List Nat) (isnulls : List Bool)
    (syscols : PgSysColumns) : Except PgErrorKind FetchResult :=
  match writeTupleAux st.targets st.cursor ⟨values, isnulls, syscols⟩ with
  | .error k => .error k
  | .ok (c, t) =>
    .ok { st := { st with cursor := c }, values := t.values, isnulls := t.isnulls,
          syscols := t.syscols, has_data := true }

/-- Source `PgDml::Fetch` (pg_dml.cc lines 232-271): pre-fill the null indicators to
all-true and zero the syscols, then — when the cursor holds no unconsumed
bytes — run the batch-request loop (end-of-result reports `has_data = false`
with the pre-filled outputs; a nonempty batch is loaded into the cursor, its
row count modelled from the spec as the out-of-band count of
`PgDocData::LoadCache`) and finally decode one row. -/
def PgDml.Fetch (st : PgDml) (natts : Nat) (values : List Nat)
    (_isnulls : List Bool) (_syscols : PgSysColumns) :
    Except PgErrorKind FetchResult :=
  let isnulls := List.replicate natts true
  let syscols : PgSysColumns := {}
  if st.cursor.isEmpty then
    match fetchLoop st.batches with
    | none =>
      .ok { st := { st with batches := [] }, values := values, isnulls := isnulls,
            syscols := syscols, has_data := false }
    | some (b, rest) =>
      PgDml.decodeOne
        { st with batches := rest, cursor := b.data,
                  accumulated_row_count := st.accumulated_row_count + b.row_count }
        values isnulls syscols
  else
    st.decodeOne values isnulls syscols

/-! ## The index-access bridge's by-row-identifier select (ybcin.c) -/

/-- Whether the statement's table view has a column with attribute number `a`
(success of `FindColumn`). -/
def PgDml.hasAttr (st : PgDml) (a : Int) : Bool :=
  st.columns.any (fun c => c.attr_num == a)

/-- The `for (attnum = 1; attnum <= tupdesc->natts; attnum++)` loop of
`YBCIndexExecuteSelect` (ybcin.c lines 237-243): append a column-reference
target for every user attribute in ascending attribute-number order, with the
tuple descriptor supplying each attribute's type. -/
def appendUserTargets : PgDml → Int → List InternalType → PgDml × Option PgErrorKind
  | st, _, [] => (st, none)
  | st, attnum, ty :: tys =>
    match st.AppendTarget (.colref ty attnum) with
    | (st, some k) => (st, some k)
    | (st, none) => appendUserTargets st (attnum + 1) tys

/-- The target set-up portion of `YBCIndexExecuteSelect` (ybcin.c lines
227-247): the legacy object-id target first when `relhasoids`, then every user
column ascending, then the row-identifier target strictly last. -/
def ybcinSelectTargets (st : PgDml) (relhasoids : Bool)
    (tupdesc : List InternalType) : PgDml × Option PgErrorKind :=
  match (if relhasoids then st.AppendTarget (.colref .kInt32Value kObjectId)
         else (st, none)) with
  | (st, some k) => (st, some k)
  | (st, none) =>
    match appendUserTargets st 1 tupdesc with
    | (st, some k) => (st, some k)
    | (st, none) => st.AppendTarget (.colref .kBinaryValue kYBTupleId)

/-- The user-column targets the loop is expected to produce, in ascending
attribute-number order starting at `attnum`. -/
def userTargetList : Int → List InternalType → List PgExpr
  | _, [] => []
  | attnum, ty :: tys => .colref ty attnum :: userTargetList (attnum + 1) tys

/-! ## Concrete fixtures for the evaluations below -/

/-- Fixture: a non-virtual int32 user column. -/
def exColInt (a : Int) (i : Nat) : PgColumn :=
  { attr_num := a, id := i, internal_type := .kInt32Value, is_virtual_column := false }

/-- Fixture: a non-virtual column with the combined TEXT/BINARY internal type. -/
def exColBin : PgColumn :=
  { attr_num := 1, id := 11, internal_type := .kBinaryValue, is_virtual_column := false }

/-- Fixture: the row-identifier system column (virtual, binary). -/
def exColYbctid : PgColumn :=
  { attr_num := kYBTupleId, id := 99, internal_type := .kBinaryValue,
    is_virtual_column := true }

/-- Fixture: the legacy object-id system column. -/
def exColOid : PgColumn :=
  { attr_num := kObjectId, id := 98, internal_type := .kInt32Value,
    is_virtual_column := true }

/-- Fixture: a statement over a single binary-typed column. -/
def exStBin : PgDml := { columns := [exColBin] }

/-- Fixture: a statement over two int32 columns. -/
def exStTwo : PgDml := { columns := [exColInt 1 11, exColInt 2 12] }

/-- Fixture: the two-column statement after one successful assignment to
attribute 1. -/
def exStAssigned : PgDml := (exStTwo.AssignColumn 1 (.const .kInt32Value [10])).1

/-- Fixture: the two-column statement after one successful bind of attribute 1. -/
def exStBound : PgDml := (exStTwo.BindColumn 1 (.const .kInt32Value [10])).1

/-- Fixture: a statement whose target list references attribute 2 before
attribute 1, with one buffered row (attribute 2's value 10 first on the wire,
then attribute 1's value 20). -/
def exStSwapped : PgDml :=
  { columns := [exColInt 1 11, exColInt 2 12],
    targets := [.colref .kInt32Value 2, .colref .kInt32Value 1],
    cursor := [0, 0, 0, 0, 10, 0, 0, 0, 0, 20] }

/-- Fixture: a statement with an empty target list but a non-empty cursor. -/
def exStNoTargets : PgDml :=
  { columns := [exColInt 1 11], targets := [], cursor := [1, 2, 3] }

/-- Fixture: a statement with an empty cursor whose operation will deliver two
zero-row batches and then a batch with one row. -/
def exStBatches : PgDml :=
  { columns := [exColInt 1 11],
    targets := [.colref .kInt32Value 1],
    batches := [⟨0, []⟩, ⟨0, []⟩, ⟨1, [0, 0, 0, 0, 5]⟩] }

/-- Fixture: a statement over one user column and the row-identifier column. -/
def exStYb : PgDml := { columns := [exColInt 1 11, exColYbctid] }

/-- Fixture: a two-user-column table view with both system columns, as the
index-access bridge sees it. -/
def exStTable : PgDml :=
  { columns := [exColInt 1 11, exColInt 2 12, exColYbctid, exColOid] }

/-! ## Association-list lemmas -/

theorem alookup_cons {α : Type} (p : Nat × α) (l : List (Nat × α)) (k : Nat) :
    alookup (p :: l) k = if p.1 = k then some p.2 else alookup l k := by
  by_cases h : p.1 = k <;> simp [alookup, List.find?_cons, h]

theorem alookup_none_not_mem {α : Type} (l : List (Nat × α)) (k : Nat)
    (h : alookup l k = none) : ∀ q ∈ l, q.1 ≠ k := by
  induction l with
  | nil => intro q hq; cases hq
  | cons p l ih =>
    intro q hq
    by_cases hp : p.1 = k
    · simp [alookup_cons, hp] at h
    · rcases List.mem_cons.mp hq with rfl | hq
      · exact hp
      · simp only [alookup_cons, if_neg hp] at h
        exact ih h q hq

theorem alookup_map_replace {α : Type} (l : List (Nat × α)) (k : Nat) (v : α)
    (h : (alookup l k).isSome = true) :
    alookup (l.map (fun p => if p.1 = k then (k, v) else p)) k = some v := by
  induction l with
  | nil => simp [alookup] at h
  | cons p l ih =>
    by_cases hp : p.1 = k
    · simp [alookup_cons, hp]
    · simp only [alookup_cons, if_neg hp] at h
      simp only [List.map_cons, if_neg hp, alookup_cons]
      exact ih h

theorem alookup_map_replace_ne {α : Type} (l : List (Nat × α)) (k k' : Nat) (v : α)
    (h : k' ≠ k) :
    alookup (l.map (fun p => if p.1 = k then (k, v) else p)) k' = alookup l k' := by
  induction l with
  | nil => rfl
  | cons p l ih =>
    by_cases hp : p.1 = k
    · have h2 : p.1 ≠ k' := by rw [hp]; exact Ne.symm h
      simp only [List.map_cons, if_pos hp, alookup_cons]
      rw [if_neg (Ne.symm h), if_neg h2]
      exact ih
    · simp only [List.map_cons, if_neg hp, alookup_cons]
      by_cases hp' : p.1 = k'
      · rw [if_pos hp', if_pos hp']
      · rw [if_neg hp', if_neg hp']
        exact ih

theorem alookup_aupsert_self {α : Type} (l : List (Nat × α)) (k : Nat) (v : α) :
    alookup (aupsert l k v) k = some v := by
  unfold aupsert
  split
  · exact alookup_map_replace l k v (by assumption)
  · rw [alookup_cons]; simp

theorem alookup_aupsert_ne {α : Type} (l : List (Nat × α)) (k k' : Nat) (v : α)
    (h : k' ≠ k) :
    alookup (aupsert l k v) k' = alookup l k' := by
  unfold aupsert
  split
  · exact alookup_map_replace_ne l k k' v h
  · rw [alookup_cons, if_neg (by exact fun hh => h (by simpa using hh.symm))]

theorem aupsert_entries {α : Type} (l : List (Nat × α)) (k : Nat) (v : α) :
    ∀ q ∈ aupsert l k v, q.1 = k → q.2 = v := by
  intro q hq hk
  unfold aupsert at hq
  split at hq
  · rcases List.mem_map.mp hq with ⟨p, hp, hpq⟩
    by_cases h1 : p.1 = k
    · rw [if_pos h1] at hpq
      rw [← hpq]
    · rw [if_neg h1] at hpq
      subst hpq
      exact absurd hk h1
  · rcases List.mem_cons.mp hq with rfl | hq
    · rfl
    · have hn : alookup l k = none := by
        cases hl : alookup l k
        · rfl
        · simp_all
      exact absurd hk (alookup_none_not_mem l k hn q hq)

/-! ## Slot-content and evaluation lemmas -/

theorem pbValue_setPb_self (st : PgDml) (k : Nat)
    (f : PgsqlExpressionPB → PgsqlExpressionPB) :
    (st.setPb k f).pbValue k = (f ((alookup st.pbs k).getD {})).value := by
  simp [PgDml.setPb, PgDml.pbValue, alookup_aupsert_self]

theorem pbValue_setPb_ne (st : PgDml) (k s : Nat)
    (f : PgsqlExpressionPB → PgsqlExpressionPB) (h : s ≠ k) :
    (st.setPb k f).pbValue s = st.pbValue s := by
  simp [PgDml.setPb, PgDml.pbValue, alookup_aupsert_ne _ _ _ _ h]

theorem evalStep_pbValue_ne (e : PgExpr) (st : PgDml) (k s : Nat) (h : s ≠ k) :
    (e.evalStep st k).pbValue s = st.pbValue s := by
  cases e <;> simp [PgExpr.evalStep, pbValue_setPb_ne _ _ _ _ h]

theorem evalStep_const_pbValue (ty : InternalType) (v : List Nat) (st : PgDml)
    (k : Nat) :
    ((PgExpr.const ty v).evalStep st k).pbValue k = some v := by
  simp [PgExpr.evalStep, pbValue_setPb_self]

theorem evalAll_pbValue_preserved (l : List (Nat × PgExpr)) (st : PgDml) (s : Nat)
    (ty : InternalType) (v : List Nat)
    (hall : ∀ q ∈ l, q.1 = s → q.2 = PgExpr.const ty v)
    (hcur : st.pbValue s = some v) :
    (evalAll st l).pbValue s = some v := by
  induction l generalizing st with
  | nil => exact hcur
  | cons q l ih =>
    obtain ⟨k, e⟩ := q
    show (evalAll (e.evalStep st k) l).pbValue s = some v
    refine ih _ (fun q hq => hall q (List.mem_cons_of_mem _ hq)) ?_
    by_cases hk : k = s
    · subst hk
      have he : e = PgExpr.const ty v := hall (k, e) (List.mem_cons_self _ _) rfl
      subst he
      exact evalStep_const_pbValue ty v st k
    · rw [evalStep_pbValue_ne _ _ _ _ (fun hh => hk hh.symm)]
      exact hcur

theorem evalAll_pbValue_set (l : List (Nat × PgExpr)) (st : PgDml) (s : Nat)
    (ty : InternalType) (v : List Nat)
    (hall : ∀ q ∈ l, q.1 = s → q.2 = PgExpr.const ty v)
    (hsome : (alookup l s).isSome = true) :
    (evalAll st l).pbValue s = some v := by
  induction l generalizing st with
  | nil => simp [alookup] at hsome
  | cons q l ih =>
    obtain ⟨k, e⟩ := q
    show (evalAll (e.evalStep st k) l).pbValue s = some v
    by_cases hk : k = s
    · subst hk
      have he : e = PgExpr.const ty v := hall (k, e) (List.mem_cons_self _ _) rfl
      subst he
      exact evalAll_pbValue_preserved l _ k ty v
        (fun q hq => hall q (List.mem_cons_of_mem _ hq))
        (evalStep_const_pbValue ty v st k)
    · have hsome' : (alookup l s).isSome = true := by
        simpa [alookup_cons, hk] using hsome
      exact ih _ (fun q hq => hall q (List.mem_cons_of_mem _ hq)) hsome'

/-! ## Column resolution and preparation lemmas -/

theorem findColumn_error_kind (st : PgDml) (attr : Int) (k : PgErrorKind)
    (h : st.FindColumn attr = .error k) : k = PgErrorKind.NotFound := by
  unfold PgDml.FindColumn at h
  split at h
  · cases h
  · cases h; rfl

theorem prepareForRead_no_corruption (e : PgExpr) (st : PgDml) (slot : Nat) :
    (e.prepareForRead st slot).2 ≠ some PgErrorKind.Corruption := by
  cases e with
  | const ty v => simp [PgExpr.prepareForRead]
  | placeholder ty => simp [PgExpr.prepareForRead]
  | colref ty attr =>
    show (st.PrepareColumnForRead attr slot).2 ≠ _
    unfold PgDml.PrepareColumnForRead
    cases h : st.FindColumn attr with
    | error k =>
      have := findColumn_error_kind st attr k h
      subst this
      simp
    | ok col => simp

theorem prepareForRead_targets (e : PgExpr) (st : PgDml) (slot : Nat) :
    ((e.prepareForRead st slot).1).targets = st.targets := by
  cases e with
  | const ty v => simp [PgExpr.prepareForRead, PgDml.setPb]
  | placeholder ty => simp [PgExpr.prepareForRead]
  | colref ty attr =>
    show ((st.PrepareColumnForRead attr slot).1).targets = st.targets
    unfold PgDml.PrepareColumnForRead
    cases h : st.FindColumn attr with
    | error k => simp
    | ok col => split <;> first | rfl | (split <;> rfl)

theorem bind_tail_no_corruption (st1 : PgDml) (slot : Nat) (attr : Int) (e : PgExpr) :
    (match e.prepareForRead st1 slot with
     | (st, some k) => (st, some k)
     | (st, none) =>
       let st := { st with expr_binds := aupsert st.expr_binds slot e }
       if attr == kYBTupleId then
         if e.is_constant then
           ({ st with ybctid_bind := some e.binary_value }, none)
         else (st, some PgErrorKind.CheckFailed)
       else (st, none)).2 ≠ some PgErrorKind.Corruption := by
  split
  next st2 k heq =>
    have hno := prepareForRead_no_corruption e st1 slot
    rw [heq] at hno
    simpa using hno
  next st2 heq =>
    dsimp only
    split
    · split <;> simp
    · simp

theorem bindColumn_no_corruption (st : PgDml) (attr : Int) (col : PgColumn)
    (e : PgExpr) (hfind : st.FindColumn attr = .ok col)
    (htc : typeCheckOk col e = true) :
    (st.BindColumn attr e).2 ≠ some PgErrorKind.Corruption := by
  unfold PgDml.BindColumn
  rw [hfind]
  dsimp only
  rw [if_neg (by simp [htc])]
  cases hbp : col.bind_pb with
  | none => exact bind_tail_no_corruption _ _ attr e
  | some s => exact bind_tail_no_corruption _ _ attr e

theorem assign_tail_no_corruption (st1 : PgDml) (slot : Nat) (attr : Int) (e : PgExpr) :
    (let st := st1.PrepareColumnForWrite attr slot
     match e.prepareForRead st slot with
     | (st, some k) => (st, some k)
     | (st, none) =>
       ({ st with expr_assigns := aupsert st.expr_assigns slot e }, none)).2
      ≠ some PgErrorKind.Corruption := by
  dsimp only
  split
  next st2 k heq =>
    have hno := prepareForRead_no_corruption e (st1.PrepareColumnForWrite attr slot) slot
    rw [heq] at hno
    simpa using hno
  next st2 heq => simp

theorem assignColumn_no_corruption (st : PgDml) (attr : Int) (col : PgColumn)
    (e : PgExpr) (hfind : st.FindColumn attr = .ok col)
    (htc : typeCheckOk col e = true) :
    (st.AssignColumn attr e).2 ≠ some PgErrorKind.Corruption := by
  unfold PgDml.AssignColumn
  rw [hfind]
  dsimp only
  rw [if_neg (by simp [htc])]
  cases hap : col.assign_pb with
  | none => exact assign_tail_no_corruption _ _ attr e
  | some s =>
    dsimp only
    cases hheld : (alookup st.expr_assigns s).isSome with
    | true => simp
    | false => exact assign_tail_no_corruption _ _ attr e

/-- C3 counterexample: the claim says a type mismatch is rejected except for
the one sanctioned text-like/binary-like pairing, with no other type pair
accepted.  On a column of internal type `kBinaryValue`, however, the code
skips the check entirely: binding or assigning an int32 expression — neither
text-like on the expression side nor the sanctioned pair — succeeds. -/
theorem bindColumn_binary_accepts_mismatch_cex :
    exStBin.FindColumn 1 = .ok exColBin
      ∧ exColBin.internal_type ≠ (PgExpr.const .kInt32Value [7]).internal_type
      ∧ (PgExpr.const .kInt32Value [7]).internal_type ≠ InternalType.kStringValue
      ∧ (exStBin.BindColumn 1 (PgExpr.const .kInt32Value [7])).2 = none
      ∧ (exStBin.AssignColumn 1 (PgExpr.const .kInt32Value [7])).2 = none :=
  ⟨rfl, by decide, by decide, rfl, rfl⟩

/-- C3 (amended): a `bind_column`/`assign_column` call whose resolved column's
internal type differs from the expression's fails with a corruption-class
type-mismatch error whenever the column's internal type is not the combined
TEXT/BINARY representation; when the column's internal type is that binary
representation the check is skipped and any expression type passes (never a
corruption error), so the exemption keys on the column side alone rather than
on the sanctioned text/binary pair of the original claim. -/
theorem typeMismatch_corruption_binary_exempt (st : PgDml) (attr : Int)
    (col : PgColumn) (e : PgExpr) (hfind : st.FindColumn attr = .ok col) :
    (col.internal_type ≠ InternalType.kBinaryValue →
       col.internal_type ≠ e.internal_type →
       st.BindColumn attr e = (st, some PgErrorKind.Corruption)
         ∧ st.AssignColumn attr e = (st, some PgErrorKind.Corruption))
  ∧ ((col.internal_type = InternalType.kBinaryValue
        ∨ col.internal_type = e.internal_type) →
       (st.BindColumn attr e).2 ≠ some PgErrorKind.Corruption
         ∧ (st.AssignColumn attr e).2 ≠ some PgErrorKind.Corruption) := by
  constructor
  · intro h1 h2
    have htc : typeCheckOk col e = false := by
      simp [typeCheckOk, h1, h2]
    constructor
    · unfold PgDml.BindColumn
      rw [hfind]
      dsimp only
      rw [if_pos (by simp [htc])]
    · unfold PgDml.AssignColumn
      rw [hfind]
      dsimp only
      rw [if_pos (by simp [htc])]
  · intro h
    have htc : typeCheckOk col e = true := by
      rcases h with h | h <;> simp [typeCheckOk, h]
    exact ⟨bindColumn_no_corruption st attr col e hfind htc,
           assignColumn_no_corruption st attr col e hfind htc⟩

/-- Witness for the amended C3 theorem at concrete inputs: an int32 column
rejects a string constant with a corruption error, and a binary column never
reports corruption for an int32 constant. -/
theorem typeMismatch_corruption_binary_exempt_witness :
    exStTwo.BindColumn 1 (PgExpr.const .kStringValue [1])
        = (exStTwo, some PgErrorKind.Corruption)
      ∧ (exStBin.BindColumn 1 (PgExpr.const .kInt32Value [7])).2
        ≠ some PgErrorKind.Corruption :=
  ⟨((typeMismatch_corruption_binary_exempt exStTwo 1 (exColInt 1 11)
      (PgExpr.const .kStringValue [1]) rfl).1 (by decide) (by decide)).1,
   ((typeMismatch_corruption_binary_exempt exStBin 1 exColBin
      (PgExpr.const .kInt32Value [7]) rfl).2 (Or.inl rfl)).1⟩

/-- C10: when `assign_column` hits the already-assigned conflict, the
statement state is returned exactly as it was — the assign map, the column
flags and the slot allocation are untouched, because the conflict check runs
before any mutation. -/
theorem assignColumn_conflict_state_unchanged (st : PgDml) (attr : Int)
    (col : PgColumn) (s : Nat) (e : PgExpr)
    (hfind : st.FindColumn attr = .ok col)
    (htc : typeCheckOk col e = true)
    (hap : col.assign_pb = some s)
    (hheld : (alookup st.expr_assigns s).isSome = true) :
    st.AssignColumn attr e = (st, some PgErrorKind.InvalidArgument) := by
  unfold PgDml.AssignColumn
  rw [hfind]
  dsimp only
  rw [if_neg (by simp [htc]), hap]
  dsimp only
  rw [if_pos hheld]

/-- Witness for C10: the second assignment to attribute 1 of the
already-assigned fixture fails with the conflict error and returns the state
unchanged. -/
theorem assignColumn_conflict_state_unchanged_witness :
    (alookup exStAssigned.expr_assigns 0).isSome = true
      ∧ exStAssigned.AssignColumn 1 (PgExpr.const .kInt32Value [20])
        = (exStAssigned, some PgErrorKind.InvalidArgument) :=
  ⟨by decide,
   assignColumn_conflict_state_unchanged exStAssigned 1
     { attr_num := 1, id := 11, internal_type := .kInt32Value,
       is_virtual_column := false, read_requested := false,
       write_requested := true, bind_pb := none, assign_pb := some 0 }
     0 (PgExpr.const .kInt32Value [20]) rfl (by decide) rfl (by decide)⟩

/-- C2: the bind/assign asymmetry — a second `assign_column` on an attribute
whose assign slot already holds an expression fails with the invalid-argument
conflict, while a second `bind_column` on an attribute whose bind slot already
holds an expression succeeds, overwrites the slot's expression with the new
one and only appends a warning. -/
theorem bind_overwrite_assign_conflict_asymmetry (st : PgDml) (attr : Int)
    (col : PgColumn) (s : Nat) (e0 e2 : PgExpr)
    (hfind : st.FindColumn attr = .ok col)
    (htc : typeCheckOk col e2 = true) :
    (col.assign_pb = some s → alookup st.expr_assigns s = some e0 →
       st.AssignColumn attr e2 = (st, some PgErrorKind.InvalidArgument))
  ∧ (col.bind_pb = some s → alookup st.expr_binds s = some e0 →
       e2.is_constant = true →
       ∃ st', st.BindColumn attr e2 = (st', none)
         ∧ alookup st'.expr_binds s = some e2
         ∧ st'.warnings = attr :: st.warnings) := by
  constructor
  · intro hap hheld
    exact assignColumn_conflict_state_unchanged st attr col s e2 hfind htc hap
      (by simp [hheld])
  · intro hbp hheld hconst
    obtain ⟨ty, v, rfl⟩ : ∃ ty v, e2 = PgExpr.const ty v := by
      cases e2 with
      | const ty v => exact ⟨ty, v, rfl⟩
      | colref ty a => exact absurd hconst (by simp [PgExpr.is_constant])
      | placeholder ty => exact absurd hconst (by simp [PgExpr.is_constant])
    unfold PgDml.BindColumn
    rw [hfind]
    dsimp only
    rw [if_neg (by simp [htc]), hbp]
    dsimp only
    rw [if_pos (by simp [hheld])]
    dsimp only [PgExpr.prepareForRead]
    by_cases hy : (attr == kYBTupleId) = true
    · rw [if_pos hy]
      dsimp only [PgExpr.is_constant]
      rw [if_pos rfl]
      exact ⟨_, rfl, alookup_aupsert_self _ _ _, rfl⟩
    · rw [if_neg hy]
      exact ⟨_, rfl, alookup_aupsert_self _ _ _, rfl⟩

/-- Witness for C2: after one assignment and one bind of attribute 1 on the
two-column fixture, the second assignment conflicts and the second bind
overwrites with a warning. -/
theorem bind_overwrite_assign_conflict_asymmetry_witness :
    (exStAssigned.AssignColumn 1 (PgExpr.const .kInt32Value [20])
        = (exStAssigned, some PgErrorKind.InvalidArgument))
      ∧ (∃ st', exStBound.BindColumn 1 (PgExpr.const .kInt32Value [20]) = (st', none)
          ∧ alookup st'.expr_binds 0 = some (PgExpr.const .kInt32Value [20])
          ∧ st'.warnings = 1 :: exStBound.warnings) :=
  ⟨(bind_overwrite_assign_conflict_asymmetry exStAssigned 1
      { attr_num := 1, id := 11, internal_type := .kInt32Value,
        is_virtual_column := false, read_requested := false,
        write_requested := true, bind_pb := none, assign_pb := some 0 }
      0 (PgExpr.const .kInt32Value [10]) (PgExpr.const .kInt32Value [20])
      rfl (by decide)).1 rfl rfl,
   (bind_overwrite_assign_conflict_asymmetry exStBound 1
      { attr_num := 1, id := 11, internal_type := .kInt32Value,
        is_virtual_column := false, read_requested := false,
        write_requested := false, bind_pb := some 0, assign_pb := none }
      0 (PgExpr.const .kInt32Value [10]) (PgExpr.const .kInt32Value [20])
      rfl (by decide)).2 rfl rfl rfl⟩

/-- C7: rebinding a constant to an already-bound column reuses the existing
slot — the slot arena and the columns (hence the column's recorded bind slot)
are unchanged — and after `update_bind_pbs` the slot's encoded value is the
new constant's payload, never the old one. -/
theorem rebind_updates_slot_value (st : PgDml) (attr : Int) (col : PgColumn)
    (s : Nat) (ty : InternalType) (v : List Nat)
    (hfind : st.FindColumn attr = .ok col)
    (hbp : col.bind_pb = some s)
    (hheld : (alookup st.expr_binds s).isSome = true)
    (htc : typeCheckOk col (PgExpr.const ty v) = true) :
    ∃ st', st.BindColumn attr (PgExpr.const ty v) = (st', none)
      ∧ st'.next_slot = st.next_slot
      ∧ st'.columns = st.columns
      ∧ alookup st'.expr_binds s = some (PgExpr.const ty v)
      ∧ st'.UpdateBindPBs.pbValue s = some v := by
  unfold PgDml.BindColumn
  rw [hfind]
  dsimp only
  rw [if_neg (by simp [htc]), hbp]
  dsimp only
  rw [if_pos hheld]
  dsimp only [PgExpr.prepareForRead]
  have hupd : ∀ st'' : PgDml,
      st''.expr_binds = aupsert st.expr_binds s (PgExpr.const ty v) →
      st''.UpdateBindPBs.pbValue s = some v := by
    intro st'' hb
    unfold PgDml.UpdateBindPBs
    rw [hb]
    exact evalAll_pbValue_set _ _ s ty v (aupsert_entries _ _ _)
      (by rw [alookup_aupsert_self]; rfl)
  by_cases hy : (attr == kYBTupleId) = true
  · rw [if_pos hy]
    dsimp only [PgExpr.is_constant]
    rw [if_pos rfl]
    exact ⟨_, rfl, rfl, rfl, alookup_aupsert_self _ _ _, hupd _ rfl⟩
  · rw [if_neg hy]
    exact ⟨_, rfl, rfl, rfl, alookup_aupsert_self _ _ _, hupd _ rfl⟩

/-- Witness for C7: rebinding attribute 1 of the already-bound fixture to the
constant `[20]` succeeds and, after `update_bind_pbs`, slot 0 encodes `[20]`. -/
theorem rebind_updates_slot_value_witness :
    (exStBound.BindColumn 1 (PgExpr.const .kInt32Value [20])).2 = none
      ∧ ((exStBound.BindColumn 1 (PgExpr.const .kInt32Value [20])).1).UpdateBindPBs.pbValue 0
        = some [20] := by
  obtain ⟨st', h1, _, _, _, h5⟩ := rebind_updates_slot_value exStBound 1
    { attr_num := 1, id := 11, internal_type := .kInt32Value,
      is_virtual_column := false, read_requested := false,
      write_requested := false, bind_pb := some 0, assign_pb := none }
    0 .kInt32Value [20] rfl rfl (by decide) (by decide)
  rw [h1]
  exact ⟨rfl, h5⟩

/-- C4: binding the row-identifier attribute to a non-constant expression
fails (in the code, a fatal `CHECK`), while binding it to a constant succeeds
given type compatibility and captures exactly that constant's raw payload in
the statement's `ybctid_bind_` side field. -/
theorem ybctid_bind_requires_constant (st : PgDml) (col : PgColumn) (e : PgExpr)
    (hfind : st.FindColumn kYBTupleId = .ok col)
    (htc : typeCheckOk col e = true) :
    (e.is_constant = false → (st.BindColumn kYBTupleId e).2 ≠ none)
  ∧ (∀ ty v, e = PgExpr.const ty v →
      ∃ st', st.BindColumn kYBTupleId e = (st', none)
        ∧ st'.ybctid_bind = some v) := by
  constructor
  · intro hconst
    unfold PgDml.BindColumn
    rw [hfind]
    dsimp only
    rw [if_neg (by simp [htc])]
    cases hbp : col.bind_pb with
    | none =>
      split
      next => simp
      next =>
        rw [if_pos (by decide), if_neg (by simp [hconst])]
        simp
    | some s =>
      split
      next => simp
      next =>
        rw [if_pos (by decide), if_neg (by simp [hconst])]
        simp
  · rintro ty v rfl
    unfold PgDml.BindColumn
    rw [hfind]
    dsimp only
    rw [if_neg (by simp [htc])]
    cases hbp : col.bind_pb with
    | none =>
      dsimp only [PgExpr.prepareForRead]
      rw [if_pos (by decide)]
      dsimp only [PgExpr.is_constant]
      rw [if_pos rfl]
      exact ⟨_, rfl, rfl⟩
    | some s =>
      dsimp only [PgExpr.prepareForRead]
      rw [if_pos (by decide)]
      dsimp only [PgExpr.is_constant]
      rw [if_pos rfl]
      exact ⟨_, rfl, rfl⟩

/-- Witness for C4: on the fixture with a row-identifier column, binding a
column reference fails and binding the constant `[1, 2, 3]` succeeds,
capturing exactly those bytes. -/
theorem ybctid_bind_requires_constant_witness :
    (exStYb.BindColumn kYBTupleId (PgExpr.colref .kBinaryValue 1)).2 ≠ none
      ∧ ((exStYb.BindColumn kYBTupleId (PgExpr.const .kBinaryValue [1, 2, 3])).1).ybctid_bind
        = some [1, 2, 3] := by
  constructor
  · exact (ybctid_bind_requires_constant exStYb exColYbctid
      (PgExpr.colref .kBinaryValue 1) rfl (by decide)).1 rfl
  · obtain ⟨st', h1, h2⟩ := (ybctid_bind_requires_constant exStYb exColYbctid
      (PgExpr.const .kBinaryValue [1, 2, 3]) rfl (by decide)).2 .kBinaryValue [1, 2, 3] rfl
    rw [h1]
    exact h2

/-! ## Fetch-loop and decode lemmas -/

theorem fetchLoop_none (l : List Batch) (h : ∀ b ∈ l, b.row_count = 0) :
    fetchLoop l = none := by
  induction l with
  | nil => rfl
  | cons b l ih =>
    have hb : b.row_count = 0 := h b (List.mem_cons_self _ _)
    simp [fetchLoop, hb, ih (fun z hz => h z (List.mem_cons_of_mem _ hz))]

theorem fetchLoop_skip (zs : List Batch) (b : Batch) (rest : List Batch)
    (hz : ∀ z ∈ zs, z.row_count = 0) (hnz : b.row_count ≠ 0) :
    fetchLoop (zs ++ b :: rest) = some (b, rest) := by
  induction zs with
  | nil => simp [fetchLoop, hnz]
  | cons z zs ih =>
    have h0 : z.row_count = 0 := hz z (List.mem_cons_self _ _)
    simpa [fetchLoop, h0] using ih (fun w hw => hz w (List.mem_cons_of_mem _ hw))

theorem fetchLoop_mem (l : List Batch) (b : Batch) (rest : List Batch)
    (h : fetchLoop l = some (b, rest)) : b ∈ l := by
  induction l with
  | nil => cases h
  | cons a l ih =>
    unfold fetchLoop at h
    by_cases ha : (a.row_count == 0) = true
    · rw [if_pos ha] at h
      exact List.mem_cons_of_mem _ (ih h)
    · rw [if_neg ha] at h
      have h' : a = b ∧ l = rest := by simpa using h
      rw [← h'.1]
      exact List.mem_cons_self _ _

theorem decodeOne_ok (st : PgDml) (values : List Nat) (isn : List Bool)
    (sys : PgSysColumns) (r : FetchResult)
    (h : st.decodeOne values isn sys = .ok r) :
    r.has_data = true
      ∧ ∃ c t, writeTupleAux st.targets st.cursor ⟨values, isn, sys⟩ = .ok (c, t)
          ∧ r.st.cursor = c := by
  unfold PgDml.decodeOne at h
  split at h
  · cases h
  next c t heq =>
    cases h
    exact ⟨rfl, c, t, heq, rfl⟩

/-- C1: with an empty cursor, `Fetch` reports `has_data = false` with the
pre-filled all-null outputs exactly when only zero-row batches remain before
end-of-result (each one is consumed and skipped, never treated as
end-of-result), and otherwise loads the first batch with at least one row
into the cursor and proceeds to decode. -/
theorem fetch_zero_row_loop (st : PgDml) (natts : Nat)
    (values : List Nat) (isn : List Bool) (sys : PgSysColumns)
    (hc : st.cursor = []) :
    ((∀ b ∈ st.batches, b.row_count = 0) →
       st.Fetch natts values isn sys =
         .ok { st := { st with batches := [] }, values := values,
               isnulls := List.replicate natts true, syscols := {},
               has_data := false })
  ∧ (∀ zs b rest, st.batches = zs ++ b :: rest →
       (∀ z ∈ zs, z.row_count = 0) → b.row_count ≠ 0 →
       st.Fetch natts values isn sys =
         PgDml.decodeOne
           { st with batches := rest, cursor := b.data,
                     accumulated_row_count := st.accumulated_row_count + b.row_count }
           values (List.replicate natts true) {}) := by
  constructor
  · intro hz
    unfold PgDml.Fetch
    rw [if_pos (by simp [hc]), fetchLoop_none st.batches hz]
  · intro zs b rest hb hz hnz
    unfold PgDml.Fetch
    rw [if_pos (by simp [hc]), hb, fetchLoop_skip zs b rest hz hnz]

/-- Witness for C1: with two zero-row batches before a one-row batch the
fetch decodes the row of the third batch, and with a single zero-row batch
before end-of-result it reports `has_data = false` with all-null outputs. -/
theorem fetch_zero_row_loop_witness :
    exStBatches.Fetch 1 [0] [false] {} =
      PgDml.decodeOne
        { exStBatches with batches := [], cursor := [0, 0, 0, 0, 5],
                           accumulated_row_count := 1 }
        [0] (List.replicate 1 true) {}
  ∧ ({ exStBatches with batches := [⟨0, []⟩] } : PgDml).Fetch 1 [0] [false] {} =
      .ok { st := { exStBatches with batches := [] }, values := [0],
            isnulls := List.replicate 1 true, syscols := {}, has_data := false } := by
  constructor
  · exact (fetch_zero_row_loop exStBatches 1 [0] [false] {} rfl).2
      [⟨0, []⟩, ⟨0, []⟩] ⟨1, [0, 0, 0, 0, 5]⟩ [] rfl (by decide) (by decide)
  · exact (fetch_zero_row_loop { exStBatches with batches := [⟨0, []⟩] } 1 [0]
      [false] {} rfl).1 (by decide)

/-- Fixture: a statement with nothing buffered and no pending batches. -/
def exStIdle : PgDml := { columns := [exColInt 1 11] }

/-- C9: the outcome of `Fetch` is independent of the incoming contents of the
caller's null-indicator array and syscols structure (both are overwritten at
entry, the indicators to all-true and the syscols to zero); a
`has_data = false` return carries exactly the pre-filled all-null outputs, and
when a row is decoded the decode starts from the pre-filled buffers, so any
position no target writes is reported as null. -/
theorem fetch_prefills_outputs (st : PgDml) (natts : Nat) (values : List Nat)
    (isn isn' : List Bool) (sys sys' : PgSysColumns) :
    st.Fetch natts values isn sys = st.Fetch natts values isn' sys'
  ∧ (∀ r, st.Fetch natts values isn sys = .ok r → r.has_data = false →
      r.isnulls = List.replicate natts true ∧ r.syscols = {})
  ∧ (st.cursor ≠ [] →
      st.Fetch natts values isn sys
        = st.decodeOne values (List.replicate natts true) {}) := by
  refine ⟨rfl, ?_, ?_⟩
  · intro r h hfd
    unfold PgDml.Fetch at h
    by_cases hcur : st.cursor.isEmpty = true
    · rw [if_pos hcur] at h
      cases hfl : fetchLoop st.batches with
      | none =>
        rw [hfl] at h
        cases h
        exact ⟨rfl, rfl⟩
      | some p =>
        obtain ⟨b, rest⟩ := p
        rw [hfl] at h
        rw [(decodeOne_ok _ _ _ _ _ h).1] at hfd
        cases hfd
    · rw [if_neg hcur] at h
      rw [(decodeOne_ok _ _ _ _ _ h).1] at hfd
      cases hfd
  · intro hne
    unfold PgDml.Fetch
    rw [if_neg (by simp [hne])]

/-- Witness for C9: on the idle fixture a fetch with stale indicator and
syscols contents equals a fetch with fresh ones, and its `has_data = false`
result reports all-null indicators and a zeroed syscols. -/
theorem fetch_prefills_outputs_witness :
    (exStIdle.Fetch 2 [7, 7] [false, false] { oid := 3, ybctid := some [9] }
       = exStIdle.Fetch 2 [7, 7] [true, false] {})
  ∧ ([true, true] = List.replicate 2 true ∧ ({} : PgSysColumns) = {}) := by
  refine ⟨(fetch_prefills_outputs exStIdle 2 [7, 7] [false, false] [true, false]
    { oid := 3, ybctid := some [9] } {}).1, ?_⟩
  exact (fetch_prefills_outputs exStIdle 2 [7, 7] [false, false] [true, false]
      { oid := 3, ybctid := some [9] } {}).2.1
    { st := exStIdle, values := [7, 7], isnulls := [true, true], syscols := {},
      has_data := false }
    rfl rfl

/-! ## Cursor-progress lemmas -/

theorem takeExact_length_le (n : Nat) : ∀ (c p rest : List Nat),
    takeExact n c = .ok (p, rest) → rest.length ≤ c.length := by
  induction n with
  | zero =>
    intro c p rest h
    have h' : [] = p ∧ c = rest := by simpa [takeExact] using h
    rw [← h'.2]
  | succ n ih =>
    intro c p rest h
    cases c with
    | nil => exact absurd h (by simp [takeExact])
    | cons b c =>
      unfold takeExact at h
      cases hr : takeExact n c with
      | error k => rw [hr] at h; cases h
      | ok pr =>
        obtain ⟨p', rest'⟩ := pr
        rw [hr] at h
        have h' : b :: p' = p ∧ rest' = rest := by simpa using h
        rw [← h'.2]
        exact le_trans (ih c p' rest' hr) (by simp)

theorem readDataHeader_length (c c1 : List Nat) (hd : Bool)
    (h : ReadDataHeader c = .ok (hd, c1)) : c1.length + 1 = c.length := by
  cases c with
  | nil => cases h
  | cons b c =>
    have h' : (b != 0) = hd ∧ c = c1 := by simpa [ReadDataHeader] using h
    rw [← h'.2]
    simp

theorem readPayload_length_le (ty : InternalType) (c p rest : List Nat)
    (h : readPayload ty c = .ok (p, rest)) : rest.length ≤ c.length := by
  unfold readPayload at h
  cases hfs : fixedSize ty with
  | some n =>
    rw [hfs] at h
    exact takeExact_length_le n c p rest h
  | none =>
    rw [hfs] at h
    cases c with
    | nil => cases h
    | cons len c => exact le_trans (takeExact_length_le len c p rest h) (by simp)

theorem translateData_length_le (ty : InternalType) (index : Int) (isNull : Bool)
    (c : List Nat) (t : PgTuple) (rest : List Nat) (t' : PgTuple)
    (h : TranslateData ty index isNull c t = .ok (rest, t')) :
    rest.length ≤ c.length := by
  unfold TranslateData at h
  split at h
  · have h' : c = rest ∧ t = t' := by simpa using h
    rw [← h'.1]
  · cases hr : readPayload ty c with
    | error k => rw [hr] at h; cases h
    | ok pr =>
      obtain ⟨p, rest0⟩ := pr
      rw [hr] at h
      dsimp only at h
      have hle := readPayload_length_le ty c p rest0 hr
      by_cases h1 : (index == kYBTupleId - 1) = true
      · rw [if_pos h1] at h
        have h' : rest0 = rest := ((by simpa using h : rest0 = rest ∧ _)).1
        rw [← h']
        exact hle
      · rw [if_neg h1] at h
        by_cases h2 : (index == kObjectId - 1) = true
        · rw [if_pos h2] at h
          have h' : rest0 = rest := ((by simpa using h : rest0 = rest ∧ _)).1
          rw [← h']
          exact hle
        · rw [if_neg h2] at h
          by_cases h3 : (0 : Int) ≤ index
          · rw [if_pos h3] at h
            have h' : rest0 = rest := ((by simpa using h : rest0 = rest ∧ _)).1
            rw [← h']
            exact hle
          · rw [if_neg h3] at h
            have h' : rest0 = rest := ((by simpa using h : rest0 = rest ∧ _)).1
            rw [← h']
            exact hle

theorem writeTupleAux_length_le (ts : List PgExpr) : ∀ (c : List Nat) (t : PgTuple)
    (c' : List Nat) (t' : PgTuple), writeTupleAux ts c t = .ok (c', t') →
    c'.length ≤ c.length := by
  induction ts with
  | nil =>
    intro c t c' t' h
    have h' : c = c' ∧ t = t' := by simpa [writeTupleAux] using h
    rw [← h'.1]
  | cons target ts ih =>
    intro c t c' t' h
    cases target with
    | const ty v => exact absurd h (by simp [writeTupleAux])
    | placeholder ty => exact absurd h (by simp [writeTupleAux])
    | colref ty attr =>
      unfold writeTupleAux at h
      cases hh : ReadDataHeader c with
      | error k => rw [hh] at h; cases h
      | ok pr1 =>
        obtain ⟨isNull, c1⟩ := pr1
        rw [hh] at h
        dsimp only at h
        cases htr : TranslateData ty (attr - 1) isNull c1 t with
        | error k => rw [htr] at h; cases h
        | ok pr2 =>
          obtain ⟨c2, t2⟩ := pr2
          rw [htr] at h
          dsimp only at h
          have l1 := readDataHeader_length c c1 isNull hh
          have l2 := translateData_length_le ty (attr - 1) isNull c1 t c2 t2 htr
          have l3 := ih c2 t2 c' t' h
          omega

theorem writeTupleAux_length_lt (ts : List PgExpr) (hne : ts ≠ [])
    (c : List Nat) (t : PgTuple) (c' : List Nat) (t' : PgTuple)
    (h : writeTupleAux ts c t = .ok (c', t')) : c'.length < c.length := by
  cases ts with
  | nil => exact absurd rfl hne
  | cons target ts =>
    cases target with
    | const ty v => exact absurd h (by simp [writeTupleAux])
    | placeholder ty => exact absurd h (by simp [writeTupleAux])
    | colref ty attr =>
      unfold writeTupleAux at h
      cases hh : ReadDataHeader c with
      | error k => rw [hh] at h; cases h
      | ok pr1 =>
        obtain ⟨isNull, c1⟩ := pr1
        rw [hh] at h
        dsimp only at h
        cases htr : TranslateData ty (attr - 1) isNull c1 t with
        | error k => rw [htr] at h; cases h
        | ok pr2 =>
          obtain ⟨c2, t2⟩ := pr2
          rw [htr] at h
          dsimp only at h
          have l1 := readDataHeader_length c c1 isNull hh
          have l2 := translateData_length_le ty (attr - 1) isNull c1 t c2 t2 htr
          have l3 := writeTupleAux_length_le ts c2 t2 c' t' h
          omega

/-- C6 counterexample: on a statement whose target list is empty, `Fetch`
returns `has_data = true` without consuming a single byte from the non-empty
(hence non-exhausted) cursor `[1, 2, 3]`, contradicting the claim's first
half, which is stated for every call to fetch. -/
theorem fetch_no_progress_cex :
    exStNoTargets.targets = []
      ∧ exStNoTargets.cursor = [1, 2, 3]
      ∧ exStNoTargets.Fetch 1 [0] [false] {} =
        .ok { st := exStNoTargets, values := [0], isnulls := [true],
              syscols := {}, has_data := true } :=
  ⟨rfl, rfl, rfl⟩

/-- C6 (amended): for every call to fetch on a statement with a NON-EMPTY
target list, a `has_data = true` return consumes at least one byte — strictly
shortening the entry cursor when it was non-empty, or the freshly loaded
batch's buffer when the entry cursor was empty — and (unconditionally) a
`has_data = false` return only happens when the entry cursor was already
empty and leaves it empty, never while unread bytes remain. -/
theorem fetch_boundary (st : PgDml) (natts : Nat) (values : List Nat)
    (isn : List Bool) (sys : PgSysColumns) (r : FetchResult)
    (h : st.Fetch natts values isn sys = .ok r) :
    (r.has_data = false → st.cursor = [] ∧ r.st.cursor = [])
  ∧ (r.has_data = true → st.targets ≠ [] →
       (st.cursor ≠ [] → r.st.cursor.length < st.cursor.length)
       ∧ (st.cursor = [] →
           ∃ b ∈ st.batches, r.st.cursor.length < b.data.length)) := by
  unfold PgDml.Fetch at h
  by_cases hcur : st.cursor.isEmpty = true
  · have hc : st.cursor = [] := by simpa using hcur
    rw [if_pos hcur] at h
    cases hfl : fetchLoop st.batches with
    | none =>
      rw [hfl] at h
      cases h
      constructor
      · intro _
        exact ⟨hc, hc⟩
      · intro hfd
        cases hfd
    | some p =>
      obtain ⟨b, rest⟩ := p
      rw [hfl] at h
      obtain ⟨hfd, c, t, hw, hrc⟩ := decodeOne_ok _ _ _ _ _ h
      constructor
      · intro h0
        rw [hfd] at h0
        cases h0
      · intro _ hne
        constructor
        · intro hne'
          exact absurd hc hne'
        · intro _
          refine ⟨b, fetchLoop_mem _ _ _ hfl, ?_⟩
          rw [hrc]
          exact writeTupleAux_length_lt _ hne _ _ _ _ hw
  · have hc : st.cursor ≠ [] := by simpa using hcur
    rw [if_neg hcur] at h
    obtain ⟨hfd, c, t, hw, hrc⟩ := decodeOne_ok _ _ _ _ _ h
    constructor
    · intro h0
      rw [hfd] at h0
      cases h0
    · intro _ hne
      constructor
      · intro _
        rw [hrc]
        exact writeTupleAux_length_lt _ hne _ _ _ _ hw
      · intro h0
        exact absurd h0 hc

/-- Witness for the amended C6 theorem: fetching one row on the
swapped-target fixture empties its ten-byte cursor, a strict decrease. -/
theorem fetch_boundary_witness :
    exStSwapped.targets ≠ []
      ∧ (({ exStSwapped with cursor := [] } : PgDml)).cursor.length
        < exStSwapped.cursor.length :=
  ⟨by decide,
   ((fetch_boundary exStSwapped 2 [0, 0] [false, false] {}
      { st := { exStSwapped with cursor := [] }, values := [20, 10],
        isnulls := [false, false], syscols := {}, has_data := true }
      rfl).2 rfl (by decide)).1 (by decide)⟩

/-- C5 counterexample: on the swapped-target fixture the first target in
target-list order references attribute 2; its wire value 10 is decoded first
but written to output position 1 (its attribute number minus one), not to
position 0, the target's position in the target list; position 0 receives the
second target's value 20.  The claim's predicted output `[10, 20]` is refuted:
the code produces `[20, 10]`. -/
theorem decode_writes_attr_position_cex :
    exStSwapped.targets
        = [PgExpr.colref .kInt32Value 2, PgExpr.colref .kInt32Value 1]
      ∧ exStSwapped.Fetch 2 [0, 0] [false, false] {} =
        .ok { st := { exStSwapped with cursor := [] }, values := [20, 10],
              isnulls := [false, false], syscols := {}, has_data := true }
      ∧ [20, 10] ≠ [10, 20] :=
  ⟨rfl, rfl, by decide⟩

/-- C5 (amended): decoding walks the targets in target-list order, each
column-reference target reading its self-describing header and then its
payload from the cursor, but the decoded value of a user column is written at
output index `attr_num - 1` — the attribute's declared column position — not
at the target's position in the target list; any non-column-reference target
fails loudly with an internal error. -/
theorem decode_in_order_writes_attr_index (ty : InternalType) (a : Int)
    (ts : List PgExpr) (c : List Nat) (t : PgTuple) :
    (∀ e : PgExpr, e.is_colref = false →
       writeTupleAux (e :: ts) c t = .error .InternalError)
  ∧ (writeTupleAux (PgExpr.colref ty a :: ts) c t =
       match ReadDataHeader c with
       | .error k => .error k
       | .ok (isNull, c1) =>
         match TranslateData ty (a - 1) isNull c1 t with
         | .error k => .error k
         | .ok (c2, t2) => writeTupleAux ts c2 t2)
  ∧ (1 ≤ a → ∀ p rest, readPayload ty c = .ok (p, rest) →
       TranslateData ty (a - 1) false c t =
         .ok (rest, { t with
                      values := listSet t.values (a - 1).toNat (bytesToNat p),
                      isnulls := listSet t.isnulls (a - 1).toNat false })) := by
  refine ⟨?_, rfl, ?_⟩
  · intro e he
    cases e with
    | const ty' v => rfl
    | placeholder ty' => rfl
    | colref ty' a' => simp [PgExpr.is_colref] at he
  · intro ha p rest hr
    unfold TranslateData
    rw [if_neg (by simp), hr]
    dsimp only
    rw [if_neg (by simp only [kYBTupleId, beq_iff_eq]; omega),
        if_neg (by simp only [kObjectId, beq_iff_eq]; omega),
        if_pos (by omega)]

/-- Witness for the amended C5 theorem: a placeholder target fails with the
internal error, and decoding attribute 1's int32 payload `[0,0,0,5]` writes
value 5 at index 0 and clears its null indicator. -/
theorem decode_in_order_writes_attr_index_witness :
    writeTupleAux [PgExpr.placeholder .kInt32Value] [0] ⟨[0], [true], {}⟩
        = .error .InternalError
      ∧ TranslateData .kInt32Value 0 false [0, 0, 0, 5] ⟨[0], [true], {}⟩ =
        .ok ([], { values := [5], isnulls := [false], syscols := {} }) := by
  constructor
  · exact (decode_in_order_writes_attr_index .kInt32Value 1 [] [0]
      ⟨[0], [true], {}⟩).1 (PgExpr.placeholder .kInt32Value) rfl
  · exact (decode_in_order_writes_attr_index .kInt32Value 1 [] [0, 0, 0, 5]
      ⟨[0], [true], {}⟩).2.2 (by decide) [0, 0, 0, 5] [] rfl

/-! ## Target-append lemmas for the index-access bridge -/

theorem anyAttr_map_update (l : List PgColumn) (b a : Int) (f : PgColumn → PgColumn)
    (hf : ∀ c, (f c).attr_num = c.attr_num) :
    (l.map (fun c => if c.attr_num == b then f c else c)).any
        (fun c => c.attr_num == a)
      = l.any (fun c => c.attr_num == a) := by
  induction l with
  | nil => rfl
  | cons c l ih =>
    simp only [List.map_cons, List.any_cons, ih]
    congr 1
    by_cases hc : (c.attr_num == b) = true
    · rw [if_pos hc, hf]
    · rw [if_neg hc]

theorem hasAttr_setColumn (st : PgDml) (b a : Int) (f : PgColumn → PgColumn)
    (hf : ∀ c, (f c).attr_num = c.attr_num) :
    (st.setColumn b f).hasAttr a = st.hasAttr a :=
  anyAttr_map_update st.columns b a f hf

theorem prepareForRead_hasAttr (e : PgExpr) (st : PgDml) (slot : Nat) (a : Int) :
    ((e.prepareForRead st slot).1).hasAttr a = st.hasAttr a := by
  cases e with
  | const ty v => rfl
  | placeholder ty => rfl
  | colref ty attr =>
    show ((st.PrepareColumnForRead attr slot).1).hasAttr a = st.hasAttr a
    unfold PgDml.PrepareColumnForRead
    cases h : st.FindColumn attr with
    | error k => rfl
    | ok col =>
      dsimp only
      split
      · exact hasAttr_setColumn _ attr a _ (fun c => rfl)
      · rfl

theorem hasAttr_findColumn (st : PgDml) (a : Int) (ha : st.hasAttr a = true) :
    ∃ col, st.FindColumn a = .ok col := by
  unfold PgDml.hasAttr at ha
  unfold PgDml.FindColumn
  cases hf : st.columns.find? (fun c => c.attr_num == a) with
  | some c => exact ⟨c, rfl⟩
  | none =>
    rw [List.find?_eq_none] at hf
    rw [List.any_eq_true] at ha
    obtain ⟨c, hc, hca⟩ := ha
    exact absurd hca (by simpa using hf c hc)

theorem prepareColumnForRead_ok (st : PgDml) (a : Int) (slot : Nat)
    (ha : st.hasAttr a = true) :
    (st.PrepareColumnForRead a slot).2 = none := by
  obtain ⟨col, hc⟩ := hasAttr_findColumn st a ha
  unfold PgDml.PrepareColumnForRead
  rw [hc]

theorem appendTail_targets (e : PgExpr) (st0 : PgDml) (slot : Nat) :
    ((match e.prepareForRead st0 slot with
      | (st, some k) => (st, some k)
      | (st, none) =>
        ({ st with expr_binds := aupsert st.expr_binds slot e }, none)).1).targets
      = st0.targets := by
  have ht := prepareForRead_targets e st0 slot
  cases hpr : e.prepareForRead st0 slot with
  | mk st2 r =>
    rw [hpr] at ht
    cases r with
    | none => exact ht
    | some k => exact ht

theorem appendTail_hasAttr (e : PgExpr) (st0 : PgDml) (slot : Nat) (a : Int) :
    ((match e.prepareForRead st0 slot with
      | (st, some k) => (st, some k)
      | (st, none) =>
        ({ st with expr_binds := aupsert st.expr_binds slot e }, none)).1).hasAttr a
      = st0.hasAttr a := by
  have ht := prepareForRead_hasAttr e st0 slot a
  cases hpr : e.prepareForRead st0 slot with
  | mk st2 r =>
    rw [hpr] at ht
    cases r with
    | none => exact ht
    | some k => exact ht

theorem appendTail_snd (e : PgExpr) (st0 : PgDml) (slot : Nat)
    (h : (e.prepareForRead st0 slot).2 = none) :
    (match e.prepareForRead st0 slot with
     | (st, some k) => (st, some k)
     | (st, none) =>
       ({ st with expr_binds := aupsert st.expr_binds slot e }, none)).2 = none := by
  cases hpr : e.prepareForRead st0 slot with
  | mk st2 r =>
    rw [hpr] at h
    cases r with
    | none => rfl
    | some k => cases h

theorem appendTarget_targets (st : PgDml) (e : PgExpr) :
    ((st.AppendTarget e).1).targets = st.targets ++ [e] := by
  unfold PgDml.AppendTarget PgDml.AllocTargetPB
  exact (appendTail_targets e _ _).trans rfl

theorem appendTarget_hasAttr (st : PgDml) (e : PgExpr) (a : Int) :
    ((st.AppendTarget e).1).hasAttr a = st.hasAttr a := by
  unfold PgDml.AppendTarget PgDml.AllocTargetPB
  exact (appendTail_hasAttr e _ _ a).trans rfl

theorem appendTarget_colref_ok (st : PgDml) (ty : InternalType) (a : Int)
    (ha : st.hasAttr a = true) :
    (st.AppendTarget (PgExpr.colref ty a)).2 = none := by
  unfold PgDml.AppendTarget PgDml.AllocTargetPB
  exact appendTail_snd _ _ _ (prepareColumnForRead_ok _ a _ ha)

theorem appendUserTargets_spec (tys : List InternalType) : ∀ (st : PgDml) (k : Int),
    (∀ j : Nat, j < tys.length → st.hasAttr (k + j) = true) →
    ∃ st', appendUserTargets st k tys = (st', none)
      ∧ st'.targets = st.targets ++ userTargetList k tys
      ∧ (∀ a, st'.hasAttr a = st.hasAttr a) := by
  induction tys with
  | nil =>
    intro st k h
    exact ⟨st, rfl, by simp [userTargetList], fun a => rfl⟩
  | cons ty tys ih =>
    intro st k h
    have h0 : st.hasAttr k = true := by simpa using h 0 (by simp)
    have hok := appendTarget_colref_ok st ty k h0
    have htg := appendTarget_targets st (PgExpr.colref ty k)
    have hha := appendTarget_hasAttr st (PgExpr.colref ty k)
    unfold appendUserTargets
    cases hap : st.AppendTarget (PgExpr.colref ty k) with
    | mk st1 r =>
      rw [hap] at hok htg
      cases r with
      | some k' => cases hok
      | none =>
        have hcond : ∀ j : Nat, j < tys.length → st1.hasAttr (k + 1 + j) = true := by
          intro j hj
          have hh := hha (k + 1 + j)
          rw [hap] at hh
          rw [hh]
          have hj' : (j + 1 : Nat) < (ty :: tys).length := by
            simpa using Nat.succ_lt_succ hj
          have hx := h (j + 1) hj'
          have harith : k + ((j : Int) + 1) = k + 1 + (j : Int) := by ring
          simpa [harith] using hx
        obtain ⟨st', h1, h2, h3⟩ := ih st1 (k + 1) hcond
        refine ⟨st', h1, ?_, ?_⟩
        · rw [h2, htg]
          simp [userTargetList]
        · intro a
          rw [h3 a]
          have hh := hha a
          rw [hap] at hh
          exact hh

/-- C8: the by-row-identifier select of the index-access bridge appends its
targets in exactly this order — the legacy object-id system column first and
only when the relation declares one, then every user column in ascending
attribute-number order, and the row-identifier target strictly last — and the
row-identifier and object-id values are decoded into the syscols side channel
(ybctid and oid respectively), leaving the user-visible value and null arrays
untouched. -/
theorem ybcin_select_target_order (st : PgDml) (relhasoids : Bool)
    (tupdesc : List InternalType)
    (hu : ∀ j : Nat, j < tupdesc.length → st.hasAttr (1 + j) = true)
    (hoid : relhasoids = true → st.hasAttr kObjectId = true)
    (hyb : st.hasAttr kYBTupleId = true) :
    (∃ st', ybcinSelectTargets st relhasoids tupdesc = (st', none)
      ∧ st'.targets = st.targets
          ++ (if relhasoids then [PgExpr.colref .kInt32Value kObjectId] else [])
          ++ userTargetList 1 tupdesc
          ++ [PgExpr.colref .kBinaryValue kYBTupleId])
  ∧ (∀ c t p rest, readPayload .kBinaryValue c = .ok (p, rest) →
       TranslateData .kBinaryValue (kYBTupleId - 1) false c t =
         .ok (rest, { t with syscols := { t.syscols with ybctid := some p } }))
  ∧ (∀ c t p rest, readPayload .kInt32Value c = .ok (p, rest) →
       TranslateData .kInt32Value (kObjectId - 1) false c t =
         .ok (rest, { t with syscols := { t.syscols with oid := bytesToNat p } })) := by
  refine ⟨?_, ?_, ?_⟩
  · unfold ybcinSelectTargets
    cases relhasoids with
    | false =>
      obtain ⟨stu, hu1, hu2, hu3⟩ := appendUserTargets_spec tupdesc st 1 hu
      rw [if_neg (show ¬(false = true) by simp)]
      dsimp only
      rw [hu1]
      dsimp only
      have hok := appendTarget_colref_ok stu .kBinaryValue kYBTupleId
        (by rw [hu3]; exact hyb)
      have htg := appendTarget_targets stu (PgExpr.colref .kBinaryValue kYBTupleId)
      cases hap : stu.AppendTarget (PgExpr.colref .kBinaryValue kYBTupleId) with
      | mk st' r =>
        rw [hap] at hok htg
        cases r with
        | some k => cases hok
        | none =>
          refine ⟨st', rfl, ?_⟩
          rw [htg, hu2]
          simp
    | true =>
      have hok0 := appendTarget_colref_ok st .kInt32Value kObjectId (hoid rfl)
      have htg0 := appendTarget_targets st (PgExpr.colref .kInt32Value kObjectId)
      have hha0 := appendTarget_hasAttr st (PgExpr.colref .kInt32Value kObjectId)
      cases hap0 : st.AppendTarget (PgExpr.colref .kInt32Value kObjectId) with
      | mk st0 r0 =>
        rw [hap0] at hok0 htg0
        cases r0 with
        | some k => cases hok0
        | none =>
          obtain ⟨stu, hu1, hu2, hu3⟩ := appendUserTargets_spec tupdesc st0 1
            (fun j hj => by
              have hh := hha0 (1 + j)
              rw [hap0] at hh
              rw [hh]
              exact hu j hj)
          rw [if_pos rfl]
          dsimp only
          rw [hu1]
          dsimp only
          have hyb0 : stu.hasAttr kYBTupleId = true := by
            rw [hu3]
            have hh := hha0 kYBTupleId
            rw [hap0] at hh
            rw [hh]
            exact hyb
          have hok := appendTarget_colref_ok stu .kBinaryValue kYBTupleId hyb0
          have htg := appendTarget_targets stu (PgExpr.colref .kBinaryValue kYBTupleId)
          cases hap : stu.AppendTarget (PgExpr.colref .kBinaryValue kYBTupleId) with
          | mk st' r =>
            rw [hap] at hok htg
            cases r with
            | some k => cases hok
            | none =>
              refine ⟨st', rfl, ?_⟩
              rw [htg, hu2, htg0]
              simp
  · intro c t p rest hr
    unfold TranslateData
    rw [if_neg (by simp), hr]
    dsimp only
    rw [if_pos (by decide)]
  · intro c t p rest hr
    unfold TranslateData
    rw [if_neg (by simp), hr]
    dsimp only
    rw [if_neg (by decide), if_pos (by decide)]

/-- Witness for C8: on the two-user-column table fixture with object ids the
select's target list is built in exactly the claimed order and the build
succeeds. -/
theorem ybcin_select_target_order_witness :
    ((ybcinSelectTargets exStTable true [.kInt32Value, .kInt32Value]).1).targets
        = [PgExpr.colref .kInt32Value kObjectId, PgExpr.colref .kInt32Value 1,
           PgExpr.colref .kInt32Value 2, PgExpr.colref .kBinaryValue kYBTupleId]
      ∧ (ybcinSelectTargets exStTable true [.kInt32Value, .kInt32Value]).2 = none := by
  obtain ⟨⟨st', h1, h2⟩, -, -⟩ :=
    ybcin_select_target_order exStTable true [.kInt32Value, .kInt32Value]
      (by
        intro j hj
        match j with
        | 0 => decide
        | 1 => decide
        | n + 2 => exact absurd hj (by simp))
      (fun _ => by decide) (by decide)
  constructor
  · rw [h1]
    exact h2
  · rw [h1]

end YbPggate
